import Mathlib

/-!
Verification of the RobotChatBot core against its specification.

Part I embeds the SentimentAnalyzer
(claude-desktop/environments/dev/src/sentiment-analyzer.js).

Part II embeds the SpeechManager class of the speech-manager source file
(the 831-line class whose state record holds initialized/available/
speaking/paused/muted/currentUtterance/pendingSpeeches/speechCount).

All machine arithmetic in the original is JS double arithmetic; every value
the analyzer manipulates is an exact multiple of one tenth, and on those
values doubles and rationals order identically, so scores are embedded as
integers counting tenths and the final confidence as a rational.
-/

namespace RobotChatBot

/-! ## Part I: SentimentAnalyzer -/

/-- Emotion keyword dictionary, field `happy` of `this.emotionKeywords`. -/
def happyKeywords : List String :=
  ["happy", "glad", "delighted", "joyful", "pleased", "exciting", "cheerful",
   "content", "thrilled", "excellent", "wonderful", "amazing", "fantastic",
   "great", "good", "positive", "love", "enjoy", "awesome", "congratulations",
   "celebrate", "😊", "😀", "😄", "😁", "🙂", "😃", "🎉", "👍", "♥"]

/-- Emotion keyword dictionary, field `sad`. -/
def sadKeywords : List String :=
  ["sad", "unhappy", "upset", "disappointed", "sorry", "regret", "depressed",
   "unfortunate", "tragic", "heartbroken", "miserable", "terrible", "awful",
   "worried", "bad", "negative", "fail", "failed", "failure", "lost", "lose",
   "worst", "impossible", "horrible", "crying", "😢", "😭", "😔", "😞", "😥", "💔"]

/-- Emotion keyword dictionary, field `angry`. -/
def angryKeywords : List String :=
  ["angry", "mad", "furious", "annoyed", "irritated", "frustrated", "hate",
   "dislike", "upset", "outraged", "aggressive", "hostile", "disgusted",
   "unacceptable", "inexcusable", "wrong", "unfair", "offensive", "rude",
   "😠", "😡", "👿", "😤", "💢"]

/-- Emotion keyword dictionary, field `surprised`. -/
def surprisedKeywords : List String :=
  ["surprised", "shocked", "astonished", "amazed", "wow", "whoa", "unexpected",
   "unbelievable", "incredible", "startled", "stunned", "remarkable", "extraordinary",
   "impressive", "shocking", "stunning", "😮", "😲", "😯", "😱", "😳", "🤯"]

/-- Emotion keyword dictionary, field `confused`. -/
def confusedKeywords : List String :=
  ["confused", "puzzled", "uncertain", "unsure", "perplexed", "complex", "complicated",
   "doubt", "wondering", "unclear", "ambiguous", "difficult", "strange", "odd",
   "weird", "confusing", "lost", "disoriented", "misunderstand", "misunderstood",
   "🤔", "😕", "❓", "❔", "🤷"]

/-- `this.modifiers.negation` (the JS source spells the contractions with an
apostrophe, written here as the escape \x27). -/
def negationWords : List String :=
  ["not", "no", "never", "neither", "nor", "none", "doesn\x27t", "don\x27t",
   "didn\x27t", "isn\x27t", "aren\x27t", "wasn\x27t", "weren\x27t", "hasn\x27t",
   "haven\x27t", "hadn\x27t", "won\x27t", "wouldn\x27t", "can\x27t", "cannot",
   "couldn\x27t", "shouldn\x27t"]

/-- `this.modifiers.intensifiers`. -/
def intensifierWords : List String :=
  ["very", "really", "extremely", "absolutely", "completely", "totally",
   "utterly", "highly", "greatly", "entirely", "thoroughly", "deeply",
   "immensely", "incredibly", "remarkably", "so", "quite", "too"]

/-!
The tokenizer.

The source splits with a regex literal in which every backslash is
doubled (line 72 of sentiment-analyzer.js), so the regex does NOT contain
the whitespace class backslash-s.  Read as a JS regex it is the
alternation of
  * a literal backslash followed by one or more literal letters s
    (the doubled backslash-s-plus branch, greedy on the s), and
  * one character from the class containing dot comma bang question
    semicolon parens backslash open-bracket (the class is closed by the
    first unescaped close-bracket, the one written as the second doubled
    backslash before it), followed by the five literal characters
    open-brace close-brace apostrophe double-quote close-bracket (the
    leftover tail after the class closes; a brace pair with no quantifier
    digits and a lone close-bracket are literals in a JS regex).
In particular an ordinary space never matches a separator, so normal
multi-word text survives as a single token.  `splitToks` implements this
split exactly: left-to-right scan, splitting at each leftmost match.
-/

/-- The character class of the second regex branch:
`.` `,` `!` `?` `;` `(` `)` backslash `[`. -/
def sepClass : List Char := ['.', ',', '!', '?', ';', '(', ')', '\\', '[']

/-- The literal five-character tail the second branch must match after a
class character: open-brace, close-brace, apostrophe, quote, `]`. -/
def sepTail : List Char := ['\x7b', '\x7d', '\x27', '\x22', ']']

/-- JS `String.prototype.split` on the (mis-escaped) separator regex:
scan left to right, and at each position try branch one (backslash then a
greedy run of `s`) before branch two (class character then `sepTail`).
Structural recursion on a fuel counter; each step consumes at least one
character while spending exactly one unit, so a fuel equal to the input
length never runs dry (the fuel-zero line is therefore unreachable from
`splitToks` and only makes the recursion structural). -/
def splitToksAux : Nat → List Char → List Char → List String
  | _, [], acc => [String.mk acc.reverse]
  | 0, cs, acc => [String.mk (acc.reverse ++ cs)]
  | fuel + 1, c :: cs, acc =>
    if c = '\\' ∧ cs.head? = some 's' then
      String.mk acc.reverse :: splitToksAux fuel (cs.dropWhile (fun x => x = 's')) []
    else if c ∈ sepClass ∧ cs.take 5 = sepTail then
      String.mk acc.reverse :: splitToksAux fuel (cs.drop 5) []
    else
      splitToksAux fuel cs (c :: acc)

/-- The split of a full character list. -/
def splitToks (cs : List Char) : List String := splitToksAux cs.length cs []

/-- `text.toLowerCase().split(regex).filter(word => word.length > 0)`. -/
def tokenize (text : String) : List String :=
  (splitToks (text.data.map Char.toLower)).filter (fun w => w.length > 0)

/-- The per-call emotion score record (`scores` object in `analyze`).

The JS code sums contributions from the set 1.0, -1.0, 1.5, -1.5 and
compares against the literals 0.2 and (via `maxScore / 3` against 1) 3.
Every such double is exactly a multiple of one tenth and IEEE doubles
order these values exactly as the rationals do, so scores are embedded
as integers counting tenths: a contribution 1.0 is `10`, 1.5 is `15`,
the threshold 0.2 is `2`. -/
structure Scores where
  happy : ℤ
  sad : ℤ
  angry : ℤ
  surprised : ℤ
  confused : ℤ
deriving DecidableEq, Repr

/-- All-zero initial scores. -/
def Scores.zero : Scores := ⟨0, 0, 0, 0, 0⟩

/-- The transient scan state of the word loop in `analyze`:
running scores plus the `negationActive` / `intensifierActive` flags. -/
structure ScanState where
  scores : Scores
  neg : Bool
  intens : Bool
deriving DecidableEq, Repr

/-- Initial scan state: zero scores, both flags false. -/
def initScan : ScanState := ⟨Scores.zero, false, false⟩

/-- One iteration of the word loop of `analyze` at index `i` on word `w`:
negation and intensifier words set their flag and `continue`; any other
word is scored against each emotion dictionary (base 1.0, negated to
-1.0 if `negationActive`, then scaled by 1.5 if `intensifierActive`), and
then the flag decay runs: `negationActive` is cleared when
`i > 0 && i % 4 === 0`, and `intensifierActive` is always cleared. -/
def stepTok (st : ScanState) (i : Nat) (w : String) : ScanState :=
  if w ∈ negationWords then { st with neg := true }
  else if w ∈ intensifierWords then { st with intens := true }
  else
    -- base score 1.0 (= 10 tenths), flipped to -1.0 under negation,
    -- multiplied by 1.5 under an intensifier (exact: ±10 * 3 / 2 = ±15)
    let base : ℤ := if st.neg then -10 else 10
    let sc : ℤ := if st.intens then base * 3 / 2 else base
    let s := st.scores
    let s : Scores :=
      { happy := s.happy + (if w ∈ happyKeywords then sc else 0)
        sad := s.sad + (if w ∈ sadKeywords then sc else 0)
        angry := s.angry + (if w ∈ angryKeywords then sc else 0)
        surprised := s.surprised + (if w ∈ surprisedKeywords then sc else 0)
        confused := s.confused + (if w ∈ confusedKeywords then sc else 0) }
    { scores := s
      neg := if st.neg ∧ 0 < i ∧ i % 4 = 0 then false else st.neg
      intens := false }

/-- Run the word loop from state `st`, the next word having index `i`. -/
def scanFrom (st : ScanState) (i : Nat) : List String → ScanState
  | [] => st
  | w :: ws => scanFrom (stepTok st i w) (i + 1) ws

/-- The scores `analyze` accumulates for the text `t`. -/
def scoresOf (t : String) : Scores := (scanFrom initScan 0 (tokenize t)).scores

/-- The `negationActive` flag after the word loop has consumed the first
`k` tokens of `toks`. -/
def negActiveAfter (toks : List String) (k : Nat) : Bool :=
  (scanFrom initScan 0 (toks.take k)).neg

/-- The final max-selection loop of `analyze`: `maxEmotion` starts at
"neutral" with `maxScore = 0.2` (2 tenths), then each emotion in
insertion order (happy, sad, angry, surprised, confused) replaces it on
a strictly greater score. -/
def selectEmotion (s : Scores) : String × ℤ :=
  let p : String × ℤ := ("neutral", 2)
  let p := if s.happy > p.2 then ("happy", s.happy) else p
  let p := if s.sad > p.2 then ("sad", s.sad) else p
  let p := if s.angry > p.2 then ("angry", s.angry) else p
  let p := if s.surprised > p.2 then ("surprised", s.surprised) else p
  if s.confused > p.2 then ("confused", s.confused) else p

/-- The result record of `analyze`.  The early non-string/empty return
carries no `scores` property, hence the `Option`. -/
structure SentimentResult where
  emotion : String
  confidence : ℚ
  scores : Option Scores
deriving DecidableEq, Repr

/-- `SentimentAnalyzer.analyze`.  `none` stands for a non-string argument
(null/undefined); the falsy-or-non-string guard then
returns neutral with confidence 0 and no scores, as it does for the empty
string.  Otherwise tokenize, scan, select, and report
`confidence = min(maxScore / 3, 1)` together with the scores. -/
def analyze : Option String → SentimentResult
  | none => ⟨"neutral", 0, none⟩
  | some t =>
    if t = "" then ⟨"neutral", 0, none⟩
    else
      let s := scoresOf t
      let p := selectEmotion s
      -- `Math.min(maxScore / 3, 1)`, with `maxScore = p.2 / 10` in tenths
      ⟨p.1, min ((p.2 : ℚ) / 10 / 3) 1, some s⟩

/-! ## Part II: SpeechManager

Embedding of the `SpeechManager` class of the speech-manager file (the
class with logger, config, `state`, `callbacks`, voice retry and Chrome
watchdog).  The platform speech engine is the external collaborator; the
embedding models the manager state together with ghost instrumentation
recording what crossed the boundary: which utterance texts were submitted
to `window.speechSynthesis.speak` and which user callbacks fired.

Scope notes, each matching the source:
  * `enginePresent` models the ambient membership test of the engine
    object on the window,
    fixed at construction (a page does not gain or lose the API).
  * The model is the non-Chrome environment: `navigator.userAgent` lacks
    `Chrome`, so `state.chromeWorkaround` stays false, the watchdog
    interval is never installed, and the pre-speak engine reset branch is
    skipped.  (The watchdog only drives the engine plus the same `cancel`
    and `speak` paths modelled here.)
  * Voice objects are not modelled: no claim touches voice selection, and
    the voice fields never influence the control flow below.
  * `setTimeout` tasks created by the `onend` handler are modelled by a
    counter of scheduled dequeue tasks; the `timer` event fires one.
    Engine `start`/`end`/`error` notifications only ever fire for the
    utterance currently submitted, so the handlers (closures over that
    utterance) are modelled as guarded transitions on `currentUtterance`.
-/

/-- An utterance as configured by `speak`: the text handed to
`new SpeechSynthesisUtterance` and the volume it was given
(`muted ? 0 : volume`, with the default config volume 1; the only values
arising are the exact integers 0 and 1). -/
structure Utt where
  text : String
  volume : ℤ
deriving DecidableEq, Repr

/-- The `SpeechManager` state (`this.state`) plus ghost logs.
`submissions` records each text passed to the engine `speak`;
`startLog` / `endLog` / `errorLog` record the user `onStart` / `onEnd` /
`onError` callback invocations; `scheduledDequeues` counts pending
`setTimeout` dequeue tasks from the `onend` handler. -/
structure SMState where
  enginePresent : Bool
  initialized : Bool
  available : Bool
  error : Option String
  speaking : Bool
  paused : Bool
  muted : Bool
  currentUtterance : Option Utt
  pendingSpeeches : List String
  speechCount : Nat
  scheduledDequeues : Nat
  submissions : List String
  startLog : List String
  endLog : List String
  errorLog : List String
deriving DecidableEq, Repr

/-- The state record as the constructor first builds it (everything
false / null / empty), in an environment where the engine is present iff
`present`. -/
def baseState (present : Bool) : SMState :=
  { enginePresent := present
    initialized := false
    available := false
    error := none
    speaking := false
    paused := false
    muted := false
    currentUtterance := none
    pendingSpeeches := []
    speechCount := 0
    scheduledDequeues := 0
    submissions := []
    startLog := []
    endLog := []
    errorLog := [] }

/-- `init()`: when the engine passes all feature checks the state is
marked available and initialized; otherwise `init` records the failure in
`state.error`, leaves `available`/`initialized` false, and re-throws.
The second component is the exception escaping `init`, if any. -/
def initFn (present : Bool) : SMState × Option String :=
  if present then
    ({ baseState present with available := true, initialized := true }, none)
  else
    let msg := "Speech synthesis not supported in this browser"
    ({ baseState present with error := some msg }, some msg)

/-- The constructor: builds the state, calls `init()` inside
`try { ... } catch (error) { logger.error(...); state.error = error.message }`,
so an `init` failure is caught and recorded, never re-thrown.  The second
component is the exception escaping the constructor, if any. -/
def constructorFn (present : Bool) : SMState × Option String :=
  match initFn present with
  | (s, none) => (s, none)
  | (s, some msg) => ({ s with error := some msg }, none)

/-- The manager state right after construction. -/
def initState (present : Bool) : SMState := (constructorFn present).1

/-- `speak(text)` with the default options.  Returns the new state and
the boolean result.  Mirrors the source order: availability check, empty
text check, truncation over 5000 characters, utterance construction with
`volume = muted ? 0 : 1`, then either enqueue (when already speaking) or
store as current and submit to the engine. -/
def speakFn (s : SMState) (text : String) : SMState × Bool :=
  if s.available = false ∨ s.enginePresent = false then (s, false)
  else if text = "" then (s, false)
  else
    let text := if text.length > 5000 then String.mk (text.data.take 4997) ++ "..." else text
    let u : Utt := { text := text, volume := if s.muted then 0 else 1 }
    if s.speaking then
      ({ s with pendingSpeeches := s.pendingSpeeches ++ [text] }, true)
    else
      ({ s with currentUtterance := some u,
                submissions := s.submissions ++ [text] }, true)

/-- The `utterance.onstart` handler: marks speaking and fires the
`onStart` callback.  The engine only starts the submitted utterance, so
the transition is guarded on a current utterance being present. -/
def engineStartFn (s : SMState) : SMState :=
  match s.currentUtterance with
  | none => s
  | some u => { s with speaking := true, startLog := s.startLog ++ [u.text] }

/-- The `utterance.onend` handler: clears speaking and the current
utterance, bumps `speechCount`, fires the `onEnd` callback, and if any
speeches are pending schedules a deferred (50 ms `setTimeout`) dequeue. -/
def engineEndFn (s : SMState) : SMState :=
  match s.currentUtterance with
  | none => s
  | some u =>
    let s := { s with speaking := false, currentUtterance := none,
                      speechCount := s.speechCount + 1,
                      endLog := s.endLog ++ [u.text] }
    if s.pendingSpeeches.isEmpty then s
    else { s with scheduledDequeues := s.scheduledDequeues + 1 }

/-- The `utterance.onerror` handler: logs, clears speaking and the
current utterance, and fires the `onError` callback.  Unlike `onend` it
schedules nothing for the pending queue. -/
def engineErrorFn (s : SMState) : SMState :=
  match s.currentUtterance with
  | none => s
  | some u => { s with speaking := false, currentUtterance := none,
                       errorLog := s.errorLog ++ [u.text] }

/-- A scheduled dequeue task firing: re-checks that speeches are pending,
shifts the first one and calls `speak` on it. -/
def timerFn (s : SMState) : SMState :=
  if s.scheduledDequeues = 0 then s
  else
    let s := { s with scheduledDequeues := s.scheduledDequeues - 1 }
    match s.pendingSpeeches with
    | [] => s
    | t :: rest => (speakFn { s with pendingSpeeches := rest } t).1

/-- `pause()`: no-op returning false unless the engine is present and the
manager is speaking and not yet paused. -/
def pauseFn (s : SMState) : SMState × Bool :=
  if s.enginePresent = false ∨ s.speaking = false ∨ s.paused = true then (s, false)
  else ({ s with paused := true }, true)

/-- `resume()`: no-op returning false unless the engine is present and
the manager is speaking and paused. -/
def resumeFn (s : SMState) : SMState × Bool :=
  if s.enginePresent = false ∨ s.speaking = false ∨ s.paused = false then (s, false)
  else ({ s with paused := false }, true)

/-- `cancel()`: returns false doing nothing when the engine object is
absent; otherwise cancels the engine and clears `speaking`, `paused`,
`currentUtterance` and the whole pending queue.  (The anonymous `onend`
`setTimeout` tasks are not cleared — the source keeps no handle to
them.) -/
def cancelFn (s : SMState) : SMState × Bool :=
  if s.enginePresent = false then (s, false)
  else ({ s with speaking := false, paused := false,
                 currentUtterance := none, pendingSpeeches := [] }, true)

/-- `mute()`: sets the flag and zeroes the volume of the current
utterance if one exists. -/
def muteFn (s : SMState) : SMState :=
  { s with muted := true,
           currentUtterance := s.currentUtterance.map (fun u => { u with volume := 0 }) }

/-- `unmute()`: clears the flag and restores the configured volume (1)
on the current utterance if one exists. -/
def unmuteFn (s : SMState) : SMState :=
  { s with muted := false,
           currentUtterance := s.currentUtterance.map (fun u => { u with volume := 1 }) }

/-- Everything that can happen to a manager after construction: an API
call from the owner, an engine lifecycle notification, or a scheduled
dequeue task firing. -/
inductive Event where
  | speak (text : String)
  | engStart
  | engEnd
  | engError
  | timer
  | cancel
  | pause
  | resume
  | mute
  | unmute
deriving DecidableEq, Repr

/-- One event, dropping the boolean API results. -/
def step (s : SMState) : Event → SMState
  | .speak t => (speakFn s t).1
  | .engStart => engineStartFn s
  | .engEnd => engineEndFn s
  | .engError => engineErrorFn s
  | .timer => timerFn s
  | .cancel => (cancelFn s).1
  | .pause => (pauseFn s).1
  | .resume => (resumeFn s).1
  | .mute => muteFn s
  | .unmute => unmuteFn s

/-- Run a sequence of events. -/
def runEvents (s : SMState) : List Event → SMState
  | [] => s
  | e :: es => runEvents (step s e) es

/-- The states a manager can actually be in: freshly constructed (with or
without an engine), or any event applied to a reachable state. -/
inductive Reachable : SMState → Prop
  | init (present : Bool) : Reachable (initState present)
  | step (s : SMState) (e : Event) : Reachable s → Reachable (step s e)

/-- Engine notifications and timer firings, as opposed to calls made by
the owning UI layer. -/
def Event.nonApi : Event → Bool
  | .engStart => true
  | .engEnd => true
  | .engError => true
  | .timer => true
  | _ => false

/-! ## Shared helper lemmas -/

/-- When every score is at or below the 0.2 threshold (2 tenths), the
selection loop keeps its initial neutral pair. -/
theorem selectEmotion_of_le (s : Scores) (h1 : s.happy ≤ 2) (h2 : s.sad ≤ 2)
    (h3 : s.angry ≤ 2) (h4 : s.surprised ≤ 2) (h5 : s.confused ≤ 2) :
    selectEmotion s = ("neutral", 2) := by
  simp only [selectEmotion]
  split_ifs <;> simp_all <;> omega

/-- Unfolding `analyze` on a nonempty string. -/
theorem analyze_some_ne (t : String) (h : t ≠ "") :
    analyze (some t) = ⟨(selectEmotion (scoresOf t)).1,
      min (((selectEmotion (scoresOf t)).2 : ℚ) / 10 / 3) 1, some (scoresOf t)⟩ := by
  simp only [analyze, if_neg h]

/-- The word loop splits over list concatenation, the index advancing by
the length of the first part. -/
theorem scanFrom_append (st : ScanState) (i : Nat) (l1 l2 : List String) :
    scanFrom st i (l1 ++ l2) = scanFrom (scanFrom st i l1) (i + l1.length) l2 := by
  induction l1 generalizing st i with
  | nil => simp [scanFrom]
  | cons w ws ih =>
    show scanFrom (stepTok st i w) (i + 1) (ws ++ l2) =
      scanFrom (scanFrom (stepTok st i w) (i + 1) ws) (i + (ws.length + 1)) l2
    rw [ih]
    congr 1
    omega

/-- Reachability is preserved by running any event sequence. -/
theorem reachable_runEvents (s : SMState) (h : Reachable s) :
    ∀ evs : List Event, Reachable (runEvents s evs)
  | [] => h
  | e :: es => reachable_runEvents (step s e) (Reachable.step s e h) es

/-- Every single event preserves the property that a speaking manager
holds a current utterance. -/
theorem step_preserves_spc (s : SMState) (e : Event)
    (ih : s.speaking = true → s.currentUtterance.isSome = true)
    (hs : (step s e).speaking = true) : (step s e).currentUtterance.isSome = true := by
  cases e with
  | speak t =>
    simp only [step, speakFn] at hs ⊢
    split_ifs at hs ⊢ <;> first | rfl | exact ih hs
  | engStart =>
    simp only [step, engineStartFn] at hs ⊢
    cases h : s.currentUtterance with
    | none =>
      simp only [h] at hs ⊢
      have hc := ih hs
      rw [h] at hc
      exact hc
    | some u => simp [h]
  | engEnd =>
    simp only [step, engineEndFn] at hs ⊢
    cases h : s.currentUtterance with
    | none =>
      simp only [h] at hs ⊢
      have hc := ih hs
      rw [h] at hc
      exact hc
    | some u =>
      simp only [h] at hs
      split_ifs at hs
  | engError =>
    simp only [step, engineErrorFn] at hs ⊢
    cases h : s.currentUtterance with
    | none =>
      simp only [h] at hs ⊢
      have hc := ih hs
      rw [h] at hc
      exact hc
    | some u => simp [h] at hs
  | timer =>
    simp only [step, timerFn] at hs ⊢
    split_ifs at hs ⊢ with h1
    · exact ih hs
    · cases hp : s.pendingSpeeches with
      | nil =>
        simp only [hp] at hs ⊢
        exact ih hs
      | cons tt rest =>
        simp only [hp] at hs ⊢
        simp only [speakFn] at hs ⊢
        split_ifs at hs ⊢ <;> first | rfl | exact ih hs
  | cancel =>
    simp only [step, cancelFn] at hs ⊢
    split_ifs at hs ⊢
    exact ih hs
  | pause =>
    simp only [step, pauseFn] at hs ⊢
    split_ifs at hs ⊢ <;> exact ih hs
  | resume =>
    simp only [step, resumeFn] at hs ⊢
    split_ifs at hs ⊢ <;> exact ih hs
  | mute =>
    simp only [step, muteFn] at hs ⊢
    have hc := ih hs
    cases h : s.currentUtterance with
    | none => rw [h] at hc; exact absurd hc (by decide)
    | some u => rfl
  | unmute =>
    simp only [step, unmuteFn] at hs ⊢
    have hc := ih hs
    cases h : s.currentUtterance with
    | none => rw [h] at hc; exact absurd hc (by decide)
    | some u => rfl

/-! ## Claim C1 -/

/-- Claim C1 (code bug evidence).  The claim promises that any text whose
whitespace-and-punctuation tokens all lie in the happy keyword set is
classified happy with positive confidence.  Because the split regex has
every backslash doubled it never splits on spaces, so the two-keyword
text "happy glad" stays a single token, matches nothing, and `analyze`
returns neutral with the threshold confidence 0.2/3 = 1/15 instead. -/
theorem analyze_happy_glad_eval :
    "happy" ∈ happyKeywords ∧ "glad" ∈ happyKeywords ∧
    "happy" ∉ negationWords ∧ "glad" ∉ negationWords ∧
    "happy" ∉ intensifierWords ∧ "glad" ∉ intensifierWords ∧
    tokenize "happy glad" = ["happy glad"] ∧
    (analyze (some "happy glad")).emotion = "neutral" ∧
    (analyze (some "happy glad")).confidence = 1 / 15 := by
  refine ⟨by decide, by decide, by decide, by decide, by decide, by decide, by decide,
    by decide, ?_⟩
  have h := analyze_some_ne "happy glad" (by decide)
  rw [show selectEmotion (scoresOf "happy glad") = ("neutral", 2) from by decide] at h
  rw [h]
  norm_num [min_def]

/-! ## Claim C2 -/

/-- Claim C2 counterexample.  The claim says `speak` returns false when
the manager is muted and that the onEnd callback still fires in the
unavailable/muted/empty cases.  In this SpeechManager a muted `speak`
submits normally (volume 0) and returns true, and the empty-text early
return fires no callback at all. -/
theorem speak_early_return_claim_false :
    (¬ ∀ s : SMState, Reachable s → s.muted = true →
        ∀ t : String, (speakFn s t).2 = false) ∧
    (¬ ∀ s : SMState, Reachable s →
        (speakFn s "").1.endLog.length = s.endLog.length + 1) := by
  constructor
  · intro h
    have hc := h (step (initState true) .mute)
      (Reachable.step _ _ (Reachable.init true)) (by decide) "hello"
    exact absurd hc (by decide)
  · intro h
    have hc := h (initState true) (Reachable.init true)
    exact absurd hc (by decide)

/-- Claim C2 as amended.  `speak` returns false immediately, changing no
state at all (hence enqueuing nothing and invoking no callback), exactly
when the engine capability is unavailable or the text is empty; a muted
manager instead proceeds normally, submitting the utterance with volume
forced to 0. -/
theorem speak_unavailable_empty_muted (s : SMState) (t : String) :
    ((s.available = false ∨ s.enginePresent = false ∨ t = "") →
      speakFn s t = (s, false)) ∧
    (s.available = true → s.enginePresent = true → s.muted = true → t ≠ "" →
      ¬ t.length > 5000 → s.speaking = false →
      speakFn s t = ({ s with currentUtterance := some ⟨t, 0⟩,
                              submissions := s.submissions ++ [t] }, true)) := by
  constructor
  · intro h
    unfold speakFn
    rcases h with h | h | h
    · rw [if_pos (Or.inl h)]
    · rw [if_pos (Or.inr h)]
    · split_ifs <;> simp_all
  · intro ha he hm hne hlen hsp
    unfold speakFn
    rw [if_neg (by simp [ha, he]), if_neg hne]
    dsimp only
    rw [if_neg hlen, if_pos hm, if_neg (by simp [hsp])]

/-- Witness for the amended C2 at concrete inputs: empty text on a fresh
manager, and a muted fresh manager speaking "hello". -/
theorem speak_unavailable_empty_muted_witness :
    speakFn (initState true) "" = (initState true, false) ∧
    speakFn (step (initState true) .mute) "hello" =
      ({ step (initState true) .mute with
          currentUtterance := some ⟨"hello", 0⟩,
          submissions := (step (initState true) .mute).submissions ++ ["hello"] }, true) :=
  ⟨(speak_unavailable_empty_muted (initState true) "").1 (Or.inr (Or.inr rfl)),
   (speak_unavailable_empty_muted (step (initState true) .mute) "hello").2
     (by decide) (by decide) (by decide) (by decide) (by decide) (by decide)⟩

/-! ## Claim C3 -/

/-- A text the broken tokenizer does split into six tokens: the doubled
backslash-s sequences are exactly what the mis-escaped regex separates
on. -/
def negCexText : String := "x\\sx\\sx\\snot\\shappy\\shappy"

/-- Claim C3 counterexample.  The negation word sits at token index 3;
the claim says the flag stays set while the next 4 tokens are scanned.
In fact the code clears the flag at any non-modifier token whose absolute
index is a positive multiple of 4, so here it is already false after the
single following token (index 4): the first "happy" scores -1.0, the
second scores +1.0, and the happy total is 0 rather than -2. -/
theorem negation_window_cex :
    tokenize negCexText = ["x", "x", "x", "not", "happy", "happy"] ∧
    "not" ∈ negationWords ∧ "happy" ∈ happyKeywords ∧
    negActiveAfter (tokenize negCexText) 4 = true ∧
    negActiveAfter (tokenize negCexText) 5 = false ∧
    scoresOf negCexText = ⟨0, 0, 0, 0, 0⟩ := by
  decide

/-- Claim C3 as amended.  The decay is tied to the absolute scan index,
not to where the negation was set: after the loop processes a
non-modifier token at any positive index divisible by 4, the negation
flag is false — however recently it was set. -/
theorem negation_decay_absolute_index (toks : List String) (k : Nat)
    (hk : k < toks.length) (hmod : k % 4 = 0) (h0 : k ≠ 0)
    (hneg : toks.get ⟨k, hk⟩ ∉ negationWords)
    (hint : toks.get ⟨k, hk⟩ ∉ intensifierWords) :
    negActiveAfter toks (k + 1) = false := by
  have htake : toks.take (k + 1) = toks.take k ++ [toks.get ⟨k, hk⟩] := by
    rw [List.take_succ]
    congr 1
    simp [List.getElem?_eq_getElem hk]
  have hlen : (toks.take k).length = k := by
    rw [List.length_take]
    omega
  unfold negActiveAfter
  rw [htake, scanFrom_append, hlen]
  simp only [Nat.zero_add]
  show (stepTok (scanFrom initScan 0 (toks.take k)) k (toks.get ⟨k, hk⟩)).neg = false
  unfold stepTok
  rw [if_neg hneg, if_neg hint]
  dsimp only
  split_ifs with hc
  · rfl
  · rcases hc2 : (scanFrom initScan 0 (toks.take k)).neg with _ | _
    · rfl
    · exact absurd ⟨hc2, Nat.pos_of_ne_zero h0, hmod⟩ hc

/-- Witness for the amended C3: negation set at index 3 is already
cleared after the non-modifier token at index 4. -/
theorem negation_decay_absolute_index_witness :
    negActiveAfter ["x", "x", "x", "not", "y", "y"] 5 = false :=
  negation_decay_absolute_index ["x", "x", "x", "not", "y", "y"] 4
    (by decide) (by decide) (by decide) (by decide) (by decide)

/-! ## Claim C4 -/

/-- Claim C4.  With "A" in flight, `speak "B"` only enqueues: the engine
has received just "A" and "B" waits in the queue.  When the engine
signals the end of "A", "B" is still not submitted — a deferred dequeue
task is scheduled instead — and only when that task fires is "B"
submitted, so the onStart callbacks fire in the order A then B. -/
theorem fifo_queue_trace :
    (runEvents (initState true) [.speak "A", .engStart, .speak "B"]).submissions = ["A"] ∧
    (runEvents (initState true) [.speak "A", .engStart, .speak "B"]).pendingSpeeches = ["B"] ∧
    (runEvents (initState true) [.speak "A", .engStart, .speak "B"]).startLog = ["A"] ∧
    (runEvents (initState true)
      [.speak "A", .engStart, .speak "B", .engEnd]).submissions = ["A"] ∧
    (runEvents (initState true)
      [.speak "A", .engStart, .speak "B", .engEnd]).scheduledDequeues = 1 ∧
    (runEvents (initState true)
      [.speak "A", .engStart, .speak "B", .engEnd]).endLog = ["A"] ∧
    (runEvents (initState true)
      [.speak "A", .engStart, .speak "B", .engEnd, .timer]).submissions = ["A", "B"] ∧
    (runEvents (initState true)
      [.speak "A", .engStart, .speak "B", .engEnd, .timer]).startLog = ["A"] ∧
    (runEvents (initState true)
      [.speak "A", .engStart, .speak "B", .engEnd, .timer, .engStart]).startLog
      = ["A", "B"] := by
  decide

/-! ## Claim C5 -/

/-- Claim C5 counterexample.  The claimed iff fails in the window between
submission and the engine start notification: right after `speak "A"`
the current utterance exists (and has signalled neither end nor error)
while `speaking` is still false, because only the onstart handler sets
the flag. -/
theorem speaking_iff_current_claim_false :
    ¬ (∀ s : SMState, Reachable s →
        (s.speaking = true ↔ s.currentUtterance.isSome = true)) := by
  intro h
  have hc := (h (step (initState true) (.speak "A"))
    (Reachable.step _ _ (Reachable.init true))).2 (by decide)
  exact absurd hc (by decide)

/-- Claim C5 as amended.  At most one request is ever current (the state
holds a single optional current utterance by construction), and in every
reachable state the forward implication holds: whenever `speaking` is
true a current utterance exists that has not yet signalled end or error.
The converse only becomes true once the engine fires start. -/
theorem speaking_implies_current (s : SMState) (h : Reachable s)
    (hs : s.speaking = true) : s.currentUtterance.isSome = true := by
  induction h with
  | init b => cases b <;> exact absurd hs (by decide)
  | step s e hr ih => exact step_preserves_spc s e ih hs

/-- Witness for the amended C5 at the reachable state in which "A" has
started. -/
theorem speaking_implies_current_witness :
    (runEvents (initState true) [.speak "A", .engStart]).currentUtterance.isSome = true :=
  speaking_implies_current _
    (reachable_runEvents (initState true) (Reachable.init true) [.speak "A", .engStart])
    (by decide)

/-! ## Claim C6 -/

/-- The state after "A" errors mid-speech while "B" waits in the queue. -/
def postErrorState : SMState :=
  runEvents (initState true) [.speak "A", .engStart, .speak "B", .engError]

/-- Claim C6 counterexample.  After the utterance-level error the queue
does NOT continue: no dequeue task has been scheduled (unlike after an
end event), "B" is still pending, only "A" ever reached the engine, and
further engine/timer activity leaves the state fixed, so "B" is never
subsequently spoken without a fresh API call. -/
theorem onerror_queue_stalled_cex :
    postErrorState.pendingSpeeches = ["B"] ∧
    postErrorState.scheduledDequeues = 0 ∧
    postErrorState.submissions = ["A"] ∧
    postErrorState.errorLog = ["A"] ∧
    runEvents postErrorState [.engEnd, .timer, .engStart, .timer] = postErrorState := by
  decide

/-- Claim C6 as amended.  On an engine error the manager does log, clear
the current request (speaking false, current utterance null) and invoke
the onError callback — but the onerror handler schedules no dequeue, so
the post-error state is a fixed point of every engine or timer event and
queued requests stay pending until some new API call. -/
theorem onerror_clears_and_stalls :
    postErrorState.speaking = false ∧
    postErrorState.currentUtterance = none ∧
    postErrorState.errorLog = ["A"] ∧
    postErrorState.pendingSpeeches = ["B"] ∧
    ∀ evs : List Event, (∀ e ∈ evs, e.nonApi = true) →
      runEvents postErrorState evs = postErrorState := by
  refine ⟨by decide, by decide, by decide, by decide, ?_⟩
  intro evs h
  induction evs with
  | nil => rfl
  | cons e es ih =>
    have he : e.nonApi = true := h e (List.mem_cons_self e es)
    have hstep : step postErrorState e = postErrorState := by
      cases e with
      | speak t => simp [Event.nonApi] at he
      | cancel => simp [Event.nonApi] at he
      | pause => simp [Event.nonApi] at he
      | resume => simp [Event.nonApi] at he
      | mute => simp [Event.nonApi] at he
      | unmute => simp [Event.nonApi] at he
      | engStart => decide
      | engEnd => decide
      | engError => decide
      | timer => decide
    show runEvents (step postErrorState e) es = postErrorState
    rw [hstep]
    exact ih (fun x hx => h x (List.mem_cons_of_mem e hx))

/-- Witness for the amended C6 on a concrete engine/timer-only event
sequence. -/
theorem onerror_clears_and_stalls_witness :
    runEvents postErrorState [.engEnd, .timer] = postErrorState :=
  onerror_clears_and_stalls.2.2.2.2 [.engEnd, .timer] (by decide)

/-! ## Claim C7 -/

/-- Claim C7 counterexample.  `cancel` does not always succeed: on a
manager whose environment lacks the engine object it returns false (the
guard at the top of `cancel`), so the universally quantified claim
fails — though such a manager never accumulates anything to clear. -/
theorem cancel_not_always_true_cex :
    ¬ (∀ s : SMState, Reachable s → (cancelFn s).2 = true) := by
  intro h
  exact absurd (h (initState false) (Reachable.init false)) (by decide)

/-- Claim C7 as amended.  Whenever the engine object is present, `cancel`
returns true and afterwards `speaking` and `paused` are false, the
current utterance is null and the pending queue is empty — from any
prior state, a queue of 3 included — and a subsequent nonempty `speak`
on an available manager submits immediately, still with an empty
queue. -/
theorem cancel_clears_state (s : SMState) (h : s.enginePresent = true) :
    (cancelFn s).2 = true ∧
    (cancelFn s).1.speaking = false ∧
    (cancelFn s).1.paused = false ∧
    (cancelFn s).1.currentUtterance = none ∧
    (cancelFn s).1.pendingSpeeches = [] ∧
    (∀ t : String, s.available = true → t ≠ "" →
      (speakFn (cancelFn s).1 t).2 = true ∧
      (speakFn (cancelFn s).1 t).1.pendingSpeeches = []) := by
  have hc : cancelFn s =
      ({ s with speaking := false, paused := false,
                currentUtterance := none, pendingSpeeches := [] }, true) := by
    unfold cancelFn
    rw [if_neg (by simp [h])]
  rw [hc]
  refine ⟨rfl, rfl, rfl, rfl, rfl, ?_⟩
  intro t ha hne
  unfold speakFn
  rw [if_neg (by simp [ha, h]), if_neg hne]
  dsimp only
  split_ifs <;> first | exact ⟨rfl, rfl⟩ | simp_all

/-- A reachable manager with "A" speaking and three queued requests. -/
def queuedState : SMState :=
  runEvents (initState true) [.speak "A", .engStart, .speak "B", .speak "C", .speak "D"]

/-- Witness for the amended C7: cancelling with 3 queued requests empties
all of them, and a following `speak "E"` starts fresh with an empty
queue. -/
theorem cancel_clears_state_witness :
    queuedState.pendingSpeeches = ["B", "C", "D"] ∧
    (cancelFn queuedState).2 = true ∧
    (cancelFn queuedState).1.pendingSpeeches = [] ∧
    (speakFn (cancelFn queuedState).1 "E").2 = true ∧
    (speakFn (cancelFn queuedState).1 "E").1.pendingSpeeches = [] := by
  have h := cancel_clears_state queuedState (by decide)
  have h2 := h.2.2.2.2.2 "E" (by decide) (by decide)
  exact ⟨by decide, h.1, h.2.2.2.2.1, h2.1, h2.2⟩

/-! ## Claim C8 -/

/-- Claim C8 counterexample.  This SpeechManager performs none of the
claimed preprocessing: speaking the text with an ampersand submits an
utterance carrying that text verbatim, not the spoken replacement the
claim requires. -/
theorem speak_no_preprocessing_cex :
    (speakFn (initState true) "a&b").1.currentUtterance = some ⟨"a&b", 1⟩ ∧
    (speakFn (initState true) "a&b").1.submissions = ["a&b"] ∧
    "a&b" ≠ "a and b" := by
  decide

/-- Claim C8 as amended.  For every accepted text (within the 5000
character limit) the utterance submitted by this SpeechManager carries
the input text verbatim; no markdown stripping or symbol replacement is
applied anywhere on the path from `speak` to the engine. -/
theorem speak_submits_verbatim (s : SMState) (t : String)
    (ha : s.available = true) (he : s.enginePresent = true) (hne : t ≠ "")
    (hlen : ¬ t.length > 5000) (hsp : s.speaking = false) :
    (speakFn s t).1.currentUtterance = some ⟨t, if s.muted then 0 else 1⟩ ∧
    (speakFn s t).1.submissions = s.submissions ++ [t] := by
  unfold speakFn
  rw [if_neg (by simp [ha, he]), if_neg hne]
  dsimp only
  rw [if_neg hlen, if_neg (by simp [hsp])]
  exact ⟨rfl, rfl⟩

/-- Witness for the amended C8 on a fresh manager speaking "xyz". -/
theorem speak_submits_verbatim_witness :
    (speakFn (initState true) "xyz").1.currentUtterance =
      some ⟨"xyz", if (initState true).muted then 0 else 1⟩ ∧
    (speakFn (initState true) "xyz").1.submissions =
      (initState true).submissions ++ ["xyz"] :=
  speak_submits_verbatim (initState true) "xyz"
    (by decide) (by decide) (by decide) (by decide) (by decide)

/-! ## Claim C9 -/

/-- Claim C9 counterexample.  With the engine absent the constructor
returns normally: the `init` failure is caught inside the constructor,
recorded in `state.error`, and no exception crosses the constructor
boundary. -/
theorem constructor_swallows_error_cex :
    (constructorFn false).2 = none ∧
    (constructorFn false).1.error = some "Speech synthesis not supported in this browser" ∧
    (constructorFn false).1.available = false := by
  decide

/-- Claim C9 as amended.  `init()` itself does throw when the engine is
absent, but the constructor wraps the call in try/catch, records the
message in `state.error` and swallows the exception: construction never
throws, and callers must detect the failure through the state record. -/
theorem constructor_catches_init_failure :
    (initFn false).2 = some "Speech synthesis not supported in this browser" ∧
    (∀ b : Bool, (constructorFn b).2 = none) ∧
    (constructorFn false).1.available = false ∧
    (constructorFn true).1.available = true := by
  refine ⟨by decide, ?_, by decide, by decide⟩
  intro b
  cases b <;> decide

/-! ## Claim C10 -/

/-- Claim C10.  On any nonempty string whose accumulated scores all stay
at or below the 0.2 threshold, `analyze` returns neutral with confidence
exactly 0.2/3 = 1/15 (strictly positive) and carries the scores record,
whereas null/undefined and the empty string get confidence 0 with no
scores record at all. -/
theorem analyze_neutral_threshold :
    (∀ t : String, t ≠ "" →
      (scoresOf t).happy ≤ 2 → (scoresOf t).sad ≤ 2 → (scoresOf t).angry ≤ 2 →
      (scoresOf t).surprised ≤ 2 → (scoresOf t).confused ≤ 2 →
      analyze (some t) = ⟨"neutral", 1 / 15, some (scoresOf t)⟩ ∧
      (0 : ℚ) < (analyze (some t)).confidence) ∧
    analyze none = ⟨"neutral", 0, none⟩ ∧
    analyze (some "") = ⟨"neutral", 0, none⟩ := by
  refine ⟨?_, rfl, by simp [analyze]⟩
  intro t ht h1 h2 h3 h4 h5
  have hsel := selectEmotion_of_le _ h1 h2 h3 h4 h5
  have h := analyze_some_ne t ht
  rw [hsel] at h
  rw [h]
  norm_num [min_def]

/-- Witness for C10 on the keyword-free text "meh". -/
theorem analyze_neutral_threshold_witness :
    analyze (some "meh") = ⟨"neutral", 1 / 15, some ⟨0, 0, 0, 0, 0⟩⟩ := by
  have hs : scoresOf "meh" = ⟨0, 0, 0, 0, 0⟩ := by decide
  have h := (analyze_neutral_threshold.1 "meh" (by decide)
    (by decide) (by decide) (by decide) (by decide) (by decide)).1
  rw [hs] at h
  exact h

end RobotChatBot
